import Mathlib

/-!
Shallow embedding of `genshin/models/genshin/character.py`: the icon codec
(`_parse_icon`, `_create_icon`), the reconciler (`_get_db_char`), and the
facade construction performed by the `BaseCharacter.__autocomplete` root
validator together with the derived URL properties `image` and `side_icon`.

The registry record type `DBChar` and the mapping `CHARACTER_NAMES` are
imported by the source from `genshin.models.genshin.constants`, a module that
is not part of this tree; they are modelled from the spec where noted.
-/

/-- Boolean test that the list `p` is a prefix of the list `l`. -/
def listPref : List Char → List Char → Bool
  | [], _ => true
  | _ :: _, [] => false
  | a :: as, b :: bs => a == b && listPref as bs

/-- Boolean substring test: some contiguous run of the second list equals
`pat`.  Mirrors Python's `pat in s` membership on strings. -/
def containsSub (pat : List Char) : List Char → Bool
  | [] => pat.isEmpty
  | s@(_ :: rest) => listPref pat s || containsSub pat rest

/-- Python `pat in s` on strings. -/
def strContains (s pat : String) : Bool := containsSub pat.data s.data

/-- Python `s.startswith(p)`. -/
def strStartsWith (s p : String) : Bool := listPref p.data s.data

/-- Python `s.endswith(p)`. -/
def strEndsWith (s p : String) : Bool := listPref p.data.reverse s.data.reverse

/-- Literal matcher for the regex model: consume the literal `p` from the
front of `s`, returning the remainder on success. -/
def litM : List Char → List Char → Option (List Char)
  | [], s => some s
  | _ :: _, [] => none
  | a :: as, b :: bs => if a = b then litM as bs else none

/-- The three characters of the literal `png` inside the icon pattern. -/
def pngChars : List Char := ['p', 'n', 'g']

/-- Tail of the icon regex after the capture group: one arbitrary
non-newline character (the `.` of `.png`) followed by the literal `png`. -/
def pngAt : List Char → Bool
  | c :: rest => c != '\n' && listPref pngChars rest
  | [] => false

/-- One backtracking attempt of the regex tail: capture exactly `k`
non-newline characters of `rest` (the `(.*)` group), then require `.png`. -/
def tryCap (rest : List Char) (k : Nat) : Option (List Char) :=
  if (rest.take k).all (fun c => c != '\n') && pngAt (rest.drop k) then
    some (rest.take k)
  else none

/-- Greedy capture: try the longest capture length first, backtracking to
shorter ones, exactly as the greedy `(.*)` of the source pattern does. -/
def greedyCapAux (rest : List Char) : Nat → Option (List Char)
  | 0 => tryCap rest 0
  | k + 1 =>
    match tryCap rest (k + 1) with
    | some cap => some cap
    | none => greedyCapAux rest k

/-- Greedy capture starting from the maximal possible length. -/
def greedyCap (rest : List Char) : Option (List Char) :=
  greedyCapAux rest rest.length

/-- Attempt of the pattern `UI_AvatarIcon(?:_Side)?_(.*).png` at one fixed
starting position: the optional group is tried present-first, and on failure
of the whole tail the engine backtracks to the group-absent alternative. -/
def matchAt (s : List Char) : Option (List Char) :=
  match litM "UI_AvatarIcon".data s with
  | none => none
  | some r1 =>
    match
      (match litM "_Side_".data r1 with
       | some r2 => greedyCap r2
       | none => none) with
    | some cap => some cap
    | none =>
      match litM "_".data r1 with
      | some r3 => greedyCap r3
      | none => none

/-- Leftmost search of `re.search`: scan starting positions left to right and
return the capture group of the first position where the pattern matches. -/
def searchCapture : List Char → Option (List Char)
  | [] => none
  | s@(_ :: rest) =>
    match matchAt s with
    | some cap => some cap
    | none => searchCapture rest

/-- String branch of `_parse_icon` (source lines 26-30): extract the capture
of `UI_AvatarIcon(?:_Side)?_(.*).png` when the pattern matches, otherwise
return the input unchanged. -/
def parseIconStr (icon : String) : String :=
  match searchCapture icon.data with
  | some cap => String.mk cap
  | none => icon

/-- Fixed base origin of all derived URLs (source line 15). -/
def ICON_BASE : String := "https://upload-os-bbs.mihoyo.com/game_record/genshin/"

/-- Source `_create_icon` (lines 33-35): normalize the icon to its key and
interpolate it into the URL template, appending a scale suffix when the
scale is nonzero. -/
def createIcon (icon specifier : String) (scale : Nat) : String :=
  ICON_BASE ++ (specifier ++ "_" ++ parseIconStr icon ++
    (if scale != 0 then "@" ++ toString scale ++ "x" else "") ++ ".png")

/-- Modelled from the spec: `DBChar` is defined in the absent module
`genshin.models.genshin.constants`; spec section 3 gives its fields
`id, iconKey (icon_name), name, element, rarity, guessed`, matching every
access and construction in the source. -/
structure DBChar where
  id : Int
  icon_name : String
  name : String
  element : String
  rarity : Int
  guessed : Bool
deriving DecidableEq

/-- Modelled from the spec: `CHARACTER_NAMES` is an insertion-ordered
mapping from id to `DBChar`; a Python dict is embedded as the list of its
records in insertion order, keyed by the `id` field. -/
abbrev Registry := List DBChar

/-- Python `CHARACTER_NAMES.get(i)` / `CHARACTER_NAMES[i]`. -/
def regGet (reg : Registry) (i : Int) : Option DBChar :=
  reg.find? (fun c => c.id == i)

/-- Python `i in CHARACTER_NAMES`. -/
def regMem (reg : Registry) (i : Int) : Bool :=
  reg.any (fun c => c.id == i)

/-- Python `CHARACTER_NAMES[c.id] = c`: replace the record at an existing
key, otherwise append in insertion order. -/
def regSet (reg : Registry) (c : DBChar) : Registry :=
  if reg.any (fun d => d.id == c.id) then
    reg.map (fun d => if d.id == c.id then c else d)
  else reg ++ [c]

/-- Errors of the embedded code: `insufficientData` is the
`ValueError("Character data incomplete")` of `_get_db_char` line 73, and
`unknownId` is the `ValueError(f"Invalid character id ...")` of
`_parse_icon` line 22. -/
inductive ResolveErr where
  | insufficientData
  | unknownId
deriving DecidableEq

/-- Result of one successful `_get_db_char` call: the resolved record, the
registry after the call, and whether a data-quality warning was emitted. -/
structure ResolveOk where
  char : DBChar
  reg : Registry
  warned : Bool
deriving DecidableEq

/-- Python truthiness of an optional integer field. -/
def truthyI : Option Int → Bool
  | none => false
  | some n => n != 0

/-- Python truthiness of an optional string field. -/
def truthyS : Option String → Bool
  | none => false
  | some s => s != ""

/-- Python `s or d` for an optional string. -/
def orDefS : Option String → String → String
  | none, d => d
  | some s, d => if s = "" then d else s

/-- Python `n or d` for an optional integer. -/
def orDefI : Option Int → Int → Int
  | none, d => d
  | some n, d => if n = 0 then d else n

/-- Integer branch of `_parse_icon` (source lines 19-24):
`CHARACTER_NAMES.get(icon)`, raising `ValueError` when the id is unknown,
otherwise returning the record's `icon_name`. -/
def parseIconId (reg : Registry) (i : Int) : Except ResolveErr String :=
  match regGet reg i with
  | some c => .ok c.icon_name
  | none => .error .unknownId

/-- Name-keyed tail of `_get_db_char` (source lines 65-73): scan the
registry by display name, fall back to a transient guessed record, or raise
when no name is available either. -/
def nameLookup (reg : Registry) (name : Option String)
    (element : Option String) (rarity : Option Int) : Except ResolveErr ResolveOk :=
  if truthyS name then
    match reg.find? (fun c => c.name == name.getD "") with
    | some c => .ok ⟨c, reg, false⟩
    | none =>
      .ok ⟨⟨0, name.getD "", name.getD "", orDefS element "Anemo", orDefI rarity 5, true⟩,
        reg, true⟩
  else .error .insufficientData

/-- Source `_get_db_char` (lines 38-73), the reconciler: direct id hit,
icon-keyed lookup with synthesis or transient fallback, name-keyed lookup
with transient fallback, otherwise failure. -/
def getDbChar (reg : Registry) (id : Option Int) (name : Option String)
    (icon : Option String) (element : Option String) (rarity : Option Int) :
    Except ResolveErr ResolveOk :=
  match (if truthyI id then regGet reg (id.getD 0) else none) with
  | some c => .ok ⟨c, reg, false⟩
  | none =>
    if truthyS icon && strContains (icon.getD "") "genshin" then
      match reg.find? (fun c => c.icon_name == parseIconStr (icon.getD "")) with
      | some c => .ok ⟨c, reg, false⟩
      | none =>
        if truthyI id && truthyS name && truthyS element && truthyI rarity then
          .ok ⟨⟨id.getD 0, parseIconStr (icon.getD ""), name.getD "", element.getD "",
                rarity.getD 0, true⟩,
              regSet reg ⟨id.getD 0, parseIconStr (icon.getD ""), name.getD "",
                element.getD "", rarity.getD 0, true⟩,
              false⟩
        else
          .ok ⟨⟨0, parseIconStr (icon.getD ""), parseIconStr (icon.getD ""),
                orDefS element "Anemo", orDefI rarity 5, true⟩,
              reg, true⟩
    else
      nameLookup reg name element rarity

/-- Raw fields a caller may supply when constructing a `BaseCharacter`;
every field is optional, mirroring `values.get(...)` in the validator. -/
structure PartialInput where
  id : Option Int := none
  name : Option String := none
  icon : Option String := none
  element : Option String := none
  rarity : Option Int := none
deriving DecidableEq

/-- Public value produced by `BaseCharacter` construction. -/
structure Facade where
  id : Int
  name : String
  element : String
  rarity : Int
  icon : String
  collab : Bool
deriving DecidableEq

/-- Source `BaseCharacter.__autocomplete` (lines 87-118).  Note that line 92
of the source calls `_get_db_char(id, icon, name, element, rarity)` against
the parameter order `(id, name, icon, element, rarity)`, so the caller's
`icon` is passed in the `name` role and the caller's `name` in the `icon`
role; the embedding keeps that call exactly as written. -/
def autocomplete (reg : Registry) (v : PartialInput) :
    Except ResolveErr (Facade × Registry × Bool) :=
  match getDbChar reg v.id v.icon v.name v.element v.rarity with
  | .error e => .error e
  | .ok o =>
    let c := o.char
    let built := createIcon c.icon_name "character_icon/UI_AvatarIcon" 0
    let kept :=
      if truthyS v.icon then
        if !strContains (v.icon.getD "") "genshin" && c.id != 0 then built
        else v.icon.getD ""
      else built
    let rc : Int × Bool :=
      if c.rarity > 100 then (c.rarity - 100, true)
      else if c.id = 10000062 then (c.rarity, true)
      else (c.rarity, false)
    .ok (⟨c.id, c.name, c.element, rc.1, kept, rc.2⟩, o.reg, o.warned)

/-- Derived `image` property (source lines 120-122). -/
def image (f : Facade) : String :=
  createIcon f.icon "character_image/UI_AvatarIcon" 2

/-- Derived `side_icon` property (source lines 124-126). -/
def side_icon (f : Facade) : String :=
  createIcon f.icon "character_side_icon/UI_AvatarIcon_Side" 0

/-- Derived `traveler_name` property (source lines 128-135). -/
def traveler_name (f : Facade) : String :=
  if f.id = 10000005 then "Aether"
  else if f.id = 10000007 then "Lumine"
  else ""

/-- Registry state after one `_get_db_char` call: on an exception Python
leaves `CHARACTER_NAMES` untouched. -/
def regAfter (reg : Registry) (id : Option Int) (name : Option String)
    (icon : Option String) (element : Option String) (rarity : Option Int) : Registry :=
  match getDbChar reg id name icon element rarity with
  | .ok o => o.reg
  | .error _ => reg

/-! Helper lemmas shared by several claims. -/

theorem findNoneAny {α : Type} (p : α → Bool) :
    ∀ l : List α, l.find? p = none → l.any p = false := by
  intro l h
  induction l with
  | nil => rfl
  | cons a t ih =>
    rw [List.find?_cons] at h
    cases hpa : p a with
    | true => rw [hpa] at h; simp at h
    | false =>
      rw [hpa] at h
      simp only [List.any_cons, hpa, Bool.false_or]
      exact ih h

theorem findAppendNone {α : Type} (p : α → Bool) (l₁ l₂ : List α)
    (h : l₁.find? p = none) : (l₁ ++ l₂).find? p = l₂.find? p := by
  induction l₁ with
  | nil => rfl
  | cons a t ih =>
    rw [List.find?_cons] at h
    cases hpa : p a with
    | true => rw [hpa] at h; simp at h
    | false =>
      rw [hpa] at h
      rw [List.cons_append, List.find?_cons, hpa]
      exact ih h

theorem regSet_fresh (reg : Registry) (c : DBChar)
    (h : reg.any (fun d => d.id == c.id) = false) : regSet reg c = reg ++ [c] := by
  unfold regSet
  rw [h]
  simp

theorem strData_append (a b : String) : (a ++ b).data = a.data ++ b.data := by
  cases a
  cases b
  rfl

theorem listPref_self_append : ∀ l t : List Char, listPref l (l ++ t) = true := by
  intro l t
  induction l with
  | nil => rfl
  | cons a as ih => simp [listPref, ih]

theorem startsWith_append (a b : String) : strStartsWith (a ++ b) a = true := by
  simp [strStartsWith, strData_append, listPref_self_append]

theorem endsWith_append (a b : String) : strEndsWith (a ++ b) b = true := by
  simp [strEndsWith, strData_append, List.reverse_append]
  have := listPref_self_append b.data.reverse a.data.reverse
  simpa using this

theorem strAppend_assoc (a b c : String) : a ++ b ++ c = a ++ (b ++ c) := by
  cases a with
  | mk la =>
    cases b with
    | mk lb =>
      cases c with
      | mk lc =>
        show String.mk (la ++ lb ++ lc) = String.mk (la ++ (lb ++ lc))
        rw [List.append_assoc]

theorem strAppend_right_empty (a : String) : a ++ "" = a := by
  cases a with
  | mk la =>
    show String.mk (la ++ []) = String.mk la
    rw [List.append_nil]

theorem createIcon2_shape (icon spec : String) :
    createIcon icon spec 2 =
      ICON_BASE ++ ((spec ++ "_" ++ parseIconStr icon) ++ "@2x.png") := by
  unfold createIcon
  rw [show (if (2 : Nat) != 0 then "@" ++ toString (2 : Nat) ++ "x" else "") = "@2x" from rfl]
  rw [strAppend_assoc (spec ++ "_" ++ parseIconStr icon) "@2x" ".png"]
  rw [show ("@2x" ++ ".png" : String) = "@2x.png" from rfl]

theorem createIcon0_shape (icon spec : String) :
    createIcon icon spec 0 =
      ICON_BASE ++ ((spec ++ "_" ++ parseIconStr icon) ++ ".png") := by
  unfold createIcon
  rw [show (if (0 : Nat) != 0 then "@" ++ toString (0 : Nat) ++ "x" else "") = "" from rfl]
  rw [strAppend_right_empty (spec ++ "_" ++ parseIconStr icon)]

/-! Claim theorems. -/

/-- C1: the validator is specified to call the reconciler with the
caller-supplied fields in the roles (id, name, icon, element, rarity) and to
resolve a name-only input through the registry; but source line 92 passes the
local variables in the order `(id, icon, name, element, rarity)` against the
parameter order `(id, name, icon, element, rarity)`, so with a registry
containing exactly the record named "Kamisato Ayaka" a name-only input
reaches no resolution rule and construction fails. -/
theorem c1_swapped_roles_failure :
    autocomplete [⟨10000002, "Ayaka", "Kamisato Ayaka", "Cryo", 5, false⟩]
        ⟨none, some "Kamisato Ayaka", none, none, none⟩ =
      .error .insufficientData := rfl

/-- C2 (counterexample): with the empty registry (so no record has iconKey
"Ayaka"), resolving the input whose only field is
`icon = "UI_AvatarIcon_Ayaka.png"` raises the insufficient-data error rather
than returning a transient record, because the icon rule additionally
requires the substring "genshin" in the icon and this icon lacks it. -/
theorem c2_counterexample :
    getDbChar [] none none (some "UI_AvatarIcon_Ayaka.png") none none =
      .error .insufficientData := rfl

/-- C2 (amended): for every registry with no record of iconKey "Ayaka",
resolving an input whose only field is an icon that contains the domain
marker "genshin" and parses to the key "Ayaka" returns the transient
unregistered record (id 0, iconKey "Ayaka", name "Ayaka", element "Anemo",
rarity 5, guessed) with a data-quality warning and no registry change. -/
theorem c2_amended (reg : Registry)
    (h : reg.find? (fun c => c.icon_name == "Ayaka") = none) :
    getDbChar reg none none (some (ICON_BASE ++ "UI_AvatarIcon_Ayaka.png")) none none =
      .ok ⟨⟨0, "Ayaka", "Ayaka", "Anemo", 5, true⟩, reg, true⟩ := by
  have step :
      getDbChar reg none none (some (ICON_BASE ++ "UI_AvatarIcon_Ayaka.png")) none none =
        (match reg.find? (fun c => c.icon_name == "Ayaka") with
         | some c => Except.ok ⟨c, reg, false⟩
         | none => Except.ok ⟨⟨0, "Ayaka", "Ayaka", "Anemo", 5, true⟩, reg, true⟩) := rfl
  rw [step, h]

/-- C2 (witness): the amended claim applied to the empty registry. -/
theorem c2_amended_witness :
    getDbChar [] none none (some (ICON_BASE ++ "UI_AvatarIcon_Ayaka.png")) none none =
      .ok ⟨⟨0, "Ayaka", "Ayaka", "Anemo", 5, true⟩, [], true⟩ :=
  c2_amended [] rfl

/-- C3 (counterexample): with the empty registry (so no record for id
10000002 and none with iconKey "Ayaka"), the scenario input as written —
its icon "UI_AvatarIcon_Ayaka.png" lacking the "genshin" marker — does not
take the icon rule at all: it falls through to the name rule, returns a
transient id-0 record, registers nothing, and a second resolution supplying
only id 10000002 then fails instead of hitting the registry. -/
theorem c3_counterexample :
    getDbChar [] (some 10000002) (some "Kamisato Ayaka")
        (some "UI_AvatarIcon_Ayaka.png") (some "Cryo") (some 5) =
      .ok ⟨⟨0, "Kamisato Ayaka", "Kamisato Ayaka", "Cryo", 5, true⟩, [], true⟩ ∧
    getDbChar [] (some 10000002) none none none none =
      .error .insufficientData := ⟨rfl, rfl⟩

/-- C3 (amended): same scenario with an icon that carries the "genshin"
marker: on a registry with no record for id 10000002 and none with iconKey
"Ayaka", resolution synthesizes, appends and returns the guessed record
(10000002, "Ayaka", "Kamisato Ayaka", "Cryo", 5), and a second resolution
supplying only id 10000002 returns that same record unchanged via the
direct id hit. -/
theorem c3_amended (reg : Registry)
    (h1 : regGet reg 10000002 = none)
    (h2 : reg.find? (fun c => c.icon_name == "Ayaka") = none) :
    getDbChar reg (some 10000002) (some "Kamisato Ayaka")
        (some (ICON_BASE ++ "UI_AvatarIcon_Ayaka.png")) (some "Cryo") (some 5) =
      .ok ⟨⟨10000002, "Ayaka", "Kamisato Ayaka", "Cryo", 5, true⟩,
        reg ++ [⟨10000002, "Ayaka", "Kamisato Ayaka", "Cryo", 5, true⟩], false⟩ ∧
    getDbChar (reg ++ [⟨10000002, "Ayaka", "Kamisato Ayaka", "Cryo", 5, true⟩])
        (some 10000002) none none none none =
      .ok ⟨⟨10000002, "Ayaka", "Kamisato Ayaka", "Cryo", 5, true⟩,
        reg ++ [⟨10000002, "Ayaka", "Kamisato Ayaka", "Cryo", 5, true⟩], false⟩ := by
  have h1l : reg.find? (fun c => c.id == (10000002 : Int)) = none := h1
  have hany : reg.any (fun d => d.id == (10000002 : Int)) = false := findNoneAny _ reg h1l
  constructor
  · have step :
        getDbChar reg (some 10000002) (some "Kamisato Ayaka")
            (some (ICON_BASE ++ "UI_AvatarIcon_Ayaka.png")) (some "Cryo") (some 5) =
          (match regGet reg 10000002 with
           | some c => Except.ok ⟨c, reg, false⟩
           | none =>
             match reg.find? (fun c => c.icon_name == "Ayaka") with
             | some c => Except.ok ⟨c, reg, false⟩
             | none =>
               Except.ok ⟨⟨10000002, "Ayaka", "Kamisato Ayaka", "Cryo", 5, true⟩,
                 regSet reg ⟨10000002, "Ayaka", "Kamisato Ayaka", "Cryo", 5, true⟩,
                 false⟩) := rfl
    rw [step, h1, h2, regSet_fresh reg _ hany]
  · have step2 :
        getDbChar (reg ++ [⟨10000002, "Ayaka", "Kamisato Ayaka", "Cryo", 5, true⟩])
            (some 10000002) none none none none =
          (match regGet (reg ++ [⟨10000002, "Ayaka", "Kamisato Ayaka", "Cryo", 5, true⟩])
              10000002 with
           | some c =>
             Except.ok ⟨c, reg ++ [⟨10000002, "Ayaka", "Kamisato Ayaka", "Cryo", 5, true⟩],
               false⟩
           | none => Except.error ResolveErr.insufficientData) := rfl
    have hget :
        regGet (reg ++ [⟨10000002, "Ayaka", "Kamisato Ayaka", "Cryo", 5, true⟩]) 10000002 =
          some ⟨10000002, "Ayaka", "Kamisato Ayaka", "Cryo", 5, true⟩ := by
      show List.find? (fun c : DBChar => c.id == (10000002 : Int))
          (reg ++ [(⟨10000002, "Ayaka", "Kamisato Ayaka", "Cryo", 5, true⟩ : DBChar)]) = _
      rw [findAppendNone _ reg _ h1l]
      rfl
    rw [step2, hget]

/-- C3 (witness): the amended claim applied to the empty registry. -/
theorem c3_amended_witness :
    getDbChar [] (some 10000002) (some "Kamisato Ayaka")
        (some (ICON_BASE ++ "UI_AvatarIcon_Ayaka.png")) (some "Cryo") (some 5) =
      .ok ⟨⟨10000002, "Ayaka", "Kamisato Ayaka", "Cryo", 5, true⟩,
        [] ++ [⟨10000002, "Ayaka", "Kamisato Ayaka", "Cryo", 5, true⟩], false⟩ ∧
    getDbChar ([] ++ [⟨10000002, "Ayaka", "Kamisato Ayaka", "Cryo", 5, true⟩])
        (some 10000002) none none none none =
      .ok ⟨⟨10000002, "Ayaka", "Kamisato Ayaka", "Cryo", 5, true⟩,
        [] ++ [⟨10000002, "Ayaka", "Kamisato Ayaka", "Cryo", 5, true⟩], false⟩ :=
  c3_amended [] rfl rfl

/-- C4 (counterexample): an input carrying an id that is absent from the
registry and nothing else still raises the insufficient-data error, refuting
the claim that the error occurs only when no id at all is present. -/
theorem c4_counterexample :
    getDbChar [] (some 999) none none none none = .error .insufficientData ∧
      truthyI (some 999) = true := ⟨rfl, rfl⟩

/-- C4 (amended): `_get_db_char` fails with the insufficient-data error
exactly when the input carries no truthy id that is present in the registry,
no truthy icon containing the domain marker "genshin", and no truthy name;
whenever one of those three is available it returns a record instead. -/
theorem c4_amended (reg : Registry) (id : Option Int) (name icon : Option String)
    (element : Option String) (rarity : Option Int) :
    getDbChar reg id name icon element rarity = .error .insufficientData ↔
      ((truthyI id = true → regGet reg (id.getD 0) = none) ∧
       (truthyS icon && strContains (icon.getD "") "genshin") = false ∧
       truthyS name = false) := by
  unfold getDbChar nameLookup
  constructor
  · intro h
    split at h
    next c heq => exact absurd h (by simp)
    next heq =>
      have hid : truthyI id = true → regGet reg (id.getD 0) = none := by
        intro ht
        rwa [if_pos ht] at heq
      split at h
      next hguard =>
        split at h
        next c hf => exact absurd h (by simp)
        next hf =>
          split at h
          next hins => exact absurd h (by simp)
          next hins => exact absurd h (by simp)
      next hguard =>
        split at h
        next hname =>
          split at h
          next c hf => exact absurd h (by simp)
          next hf => exact absurd h (by simp)
        next hname =>
          simp only [Bool.not_eq_true] at hguard hname
          exact ⟨hid, hguard, hname⟩
  · rintro ⟨hid, hguard, hname⟩
    have heq : (if truthyI id then regGet reg (id.getD 0) else none) = none := by
      cases ht : truthyI id with
      | false => simp [ht]
      | true => simp [ht, hid ht]
    rw [heq]
    simp [hguard, hname]

/-- C4 (witness): the amended claim applied to the fully-empty input. -/
theorem c4_amended_witness :
    getDbChar [] none none none none none = .error .insufficientData :=
  (c4_amended [] none none none none none).mpr ⟨fun _ => rfl, rfl, rfl⟩

/-- C9: the integer branch of `_parse_icon` returns the `icon_name` of the
registry record when the id is present, and fails with the unknown-id error
exactly when the registry has no record for that id. -/
theorem c9_resolve_key_by_id (reg : Registry) (i : Int) :
    (∀ c, regGet reg i = some c → parseIconId reg i = .ok c.icon_name) ∧
    (parseIconId reg i = .error .unknownId ↔ regGet reg i = none) := by
  cases h : regGet reg i with
  | some c =>
    constructor
    · intro d hd
      cases hd
      simp [parseIconId, h]
    · simp [parseIconId, h]
  | none =>
    constructor
    · intro d hd
      simp at hd
    · simp [parseIconId, h]

/-- C9 (witness): a registry with one record, looked up by its id. -/
theorem c9_witness :
    parseIconId [⟨1, "Keqing", "Keqing", "Electro", 5, false⟩] 1 = .ok "Keqing" :=
  (c9_resolve_key_by_id [⟨1, "Keqing", "Keqing", "Electro", 5, false⟩] 1).1
    ⟨1, "Keqing", "Keqing", "Electro", 5, false⟩ rfl

/-- C10: falsy values behave as absent at the reconciler interface: id 0
never takes the direct id hit, empty icon and name strings skip the icon and
name rules (so an input with only id 0 or only empty strings fails with the
insufficient-data error), and an empty element or zero rarity in a
synthesized guessed record is replaced by the defaults "Anemo" and 5. -/
theorem c10_falsy_handling :
    (∀ (reg : Registry) (n i e : Option String) (r : Option Int),
        getDbChar reg (some 0) n i e r = getDbChar reg none n i e r) ∧
    (∀ (reg : Registry) (id : Option Int) (e : Option String) (r : Option Int),
        getDbChar reg id (some "") (some "") e r = getDbChar reg id none none e r) ∧
    (∀ reg : Registry,
        getDbChar reg (some 0) (some "") (some "") none none =
          .error .insufficientData) ∧
    (∀ (reg : Registry) (nm : String), nm ≠ "" →
        reg.find? (fun c => c.name == nm) = none →
        getDbChar reg none (some nm) none (some "") (some 0) =
          .ok ⟨⟨0, nm, nm, "Anemo", 5, true⟩, reg, true⟩) ∧
    (∀ (reg : Registry) (ic : String), ic ≠ "" →
        strContains ic "genshin" = true →
        reg.find? (fun c => c.icon_name == parseIconStr ic) = none →
        getDbChar reg none none (some ic) (some "") (some 0) =
          .ok ⟨⟨0, parseIconStr ic, parseIconStr ic, "Anemo", 5, true⟩, reg, true⟩) := by
  refine ⟨fun reg n i e r => rfl, fun reg id e r => rfl, fun reg => rfl, ?_, ?_⟩
  · intro reg nm hne hfind
    have step : getDbChar reg none (some nm) none (some "") (some 0) =
        (if (nm != "") = true then
          (match reg.find? (fun c => c.name == nm) with
           | some c => Except.ok ⟨c, reg, false⟩
           | none => Except.ok ⟨⟨0, nm, nm, "Anemo", 5, true⟩, reg, true⟩)
         else Except.error ResolveErr.insufficientData) := rfl
    have hn : (nm != "") = true := by simp [hne]
    rw [step, if_pos hn, hfind]
  · intro reg ic hne hmark hfind
    have step : getDbChar reg none none (some ic) (some "") (some 0) =
        (if ((ic != "") && strContains ic "genshin") = true then
          (match reg.find? (fun c => c.icon_name == parseIconStr ic) with
           | some c => Except.ok ⟨c, reg, false⟩
           | none =>
             Except.ok ⟨⟨0, parseIconStr ic, parseIconStr ic, "Anemo", 5, true⟩, reg, true⟩)
         else Except.error ResolveErr.insufficientData) := rfl
    have hg : ((ic != "") && strContains ic "genshin") = true := by simp [hne, hmark]
    rw [step, if_pos hg, hfind]

/-- C10 (witness): falsy-only inputs fail, and a synthesized record with
empty element and zero rarity receives the defaults. -/
theorem c10_witness :
    getDbChar [] (some 0) (some "") (some "") none none = .error .insufficientData ∧
    getDbChar [] none (some "Zed") none (some "") (some 0) =
      .ok ⟨⟨0, "Zed", "Zed", "Anemo", 5, true⟩, [], true⟩ :=
  ⟨c10_falsy_handling.2.2.1 [],
   c10_falsy_handling.2.2.2.1 [] "Zed" (by decide) rfl⟩

/-- Registry effect of one reconciler call: every successful path either
returns the registry unchanged or appends exactly one record whose id was
not present before. -/
theorem getDbChar_reg (reg : Registry) (id : Option Int) (name icon : Option String)
    (element : Option String) (rarity : Option Int) (o : ResolveOk)
    (h : getDbChar reg id name icon element rarity = .ok o) :
    o.reg = reg ∨
      ∃ c : DBChar, reg.any (fun d => d.id == c.id) = false ∧ o.reg = reg ++ [c] := by
  unfold getDbChar nameLookup at h
  split at h
  next c heq =>
    injection h with h2
    subst h2
    exact Or.inl rfl
  next heq =>
    split at h
    next hguard =>
      split at h
      next c hf =>
        injection h with h2
        subst h2
        exact Or.inl rfl
      next hf =>
        split at h
        next hins =>
          injection h with h2
          subst h2
          have htid : truthyI id = true := by
            simp only [Bool.and_eq_true] at hins
            exact hins.1.1.1
          have hid0 : regGet reg (id.getD 0) = none := by rwa [if_pos htid] at heq
          have hany : reg.any (fun d => d.id == id.getD 0) = false :=
            findNoneAny _ reg hid0
          refine Or.inr ⟨⟨id.getD 0, parseIconStr (icon.getD ""), name.getD "",
            element.getD "", rarity.getD 0, true⟩, hany, ?_⟩
          exact regSet_fresh reg _ hany
        next hins =>
          injection h with h2
          subst h2
          exact Or.inl rfl
    next hguard =>
      split at h
      next hname =>
        split at h
        next c hf =>
          injection h with h2
          subst h2
          exact Or.inl rfl
        next hf =>
          injection h with h2
          subst h2
          exact Or.inl rfl
      next hname => exact absurd h (by simp)

/-- C7: from any registry whose records have pairwise distinct ids, one
reconciler call either leaves the registry unchanged (every error, hit and
transient path) or appends exactly one record under an id absent before the
call, so no insert overwrites and the distinct-id invariant is preserved. -/
theorem c7_registry_uniqueness (reg : Registry) (id : Option Int)
    (name icon : Option String) (element : Option String) (rarity : Option Int)
    (hu : List.Pairwise (fun a b : DBChar => a.id ≠ b.id) reg) :
    (regAfter reg id name icon element rarity = reg ∨
      ∃ c : DBChar, regMem reg c.id = false ∧
        regAfter reg id name icon element rarity = reg ++ [c]) ∧
    List.Pairwise (fun a b : DBChar => a.id ≠ b.id)
      (regAfter reg id name icon element rarity) := by
  have hcases : regAfter reg id name icon element rarity = reg ∨
      ∃ c : DBChar, reg.any (fun d => d.id == c.id) = false ∧
        regAfter reg id name icon element rarity = reg ++ [c] := by
    unfold regAfter
    cases hg : getDbChar reg id name icon element rarity with
    | error e => exact Or.inl rfl
    | ok o =>
      rcases getDbChar_reg reg id name icon element rarity o hg with h | ⟨c, hf, hr⟩
      · exact Or.inl h
      · exact Or.inr ⟨c, hf, hr⟩
  constructor
  · exact hcases
  · rcases hcases with h | ⟨c, hf, hr⟩
    · rw [h]
      exact hu
    · rw [hr, List.pairwise_append]
      refine ⟨hu, by simp, ?_⟩
      intro a ha b hb
      have hb2 : b = c := by simpa using hb
      subst hb2
      intro hEq
      have htrue : reg.any (fun d => d.id == b.id) = true :=
        List.any_eq_true.mpr ⟨a, ha, by simp [hEq]⟩
      rw [hf] at htrue
      exact Bool.noConfusion htrue

/-- C7 (witness): the invariant theorem applied to the empty registry and
the empty input. -/
theorem c7_witness :
    (regAfter [] none none none none none = [] ∨
      ∃ c : DBChar, regMem [] c.id = false ∧
        regAfter [] none none none none none = [] ++ [c]) ∧
    List.Pairwise (fun a b : DBChar => a.id ≠ b.id)
      (regAfter [] none none none none none) :=
  c7_registry_uniqueness [] none none none none none List.Pairwise.nil

/-- C6: after construction, when the rarity adopted from the canonical
record exceeds 100 the facade carries that rarity minus 100 with the collab
flag set; otherwise when the facade id is the fixed Aloy id 10000062 the
collab flag is set with rarity unaltered; otherwise collab is false and
rarity is the canonical rarity. -/
theorem c6_variant_decoding (reg : Registry) (v : PartialInput) (f : Facade)
    (rg : Registry) (w : Bool) (h : autocomplete reg v = .ok (f, rg, w)) :
    ∃ o : ResolveOk,
      getDbChar reg v.id v.icon v.name v.element v.rarity = .ok o ∧
      (o.char.rarity > 100 → f.rarity = o.char.rarity - 100 ∧ f.collab = true) ∧
      (o.char.rarity ≤ 100 → f.id = 10000062 →
        f.rarity = o.char.rarity ∧ f.collab = true) ∧
      (o.char.rarity ≤ 100 → f.id ≠ 10000062 →
        f.rarity = o.char.rarity ∧ f.collab = false) := by
  unfold autocomplete at h
  cases hg : getDbChar reg v.id v.icon v.name v.element v.rarity with
  | error e =>
    rw [hg] at h
    exact absurd h (by simp)
  | ok o =>
    rw [hg] at h
    simp only [Except.ok.injEq, Prod.mk.injEq] at h
    obtain ⟨hf, -, -⟩ := h
    subst hf
    refine ⟨o, rfl, ?_, ?_, ?_⟩
    · intro hr
      constructor
      · show (if o.char.rarity > 100 then (o.char.rarity - 100, true)
            else if o.char.id = 10000062 then (o.char.rarity, true)
            else (o.char.rarity, false) : Int × Bool).1 = o.char.rarity - 100
        rw [if_pos hr]
      · show (if o.char.rarity > 100 then (o.char.rarity - 100, true)
            else if o.char.id = 10000062 then (o.char.rarity, true)
            else (o.char.rarity, false) : Int × Bool).2 = true
        rw [if_pos hr]
    · intro hr hid
      have hid2 : o.char.id = 10000062 := hid
      have hnr : ¬ (o.char.rarity > 100) := not_lt.mpr hr
      constructor
      · show (if o.char.rarity > 100 then (o.char.rarity - 100, true)
            else if o.char.id = 10000062 then (o.char.rarity, true)
            else (o.char.rarity, false) : Int × Bool).1 = o.char.rarity
        rw [if_neg hnr, if_pos hid2]
      · show (if o.char.rarity > 100 then (o.char.rarity - 100, true)
            else if o.char.id = 10000062 then (o.char.rarity, true)
            else (o.char.rarity, false) : Int × Bool).2 = true
        rw [if_neg hnr, if_pos hid2]
    · intro hr hid
      have hid2 : ¬ (o.char.id = 10000062) := hid
      have hnr : ¬ (o.char.rarity > 100) := not_lt.mpr hr
      constructor
      · show (if o.char.rarity > 100 then (o.char.rarity - 100, true)
            else if o.char.id = 10000062 then (o.char.rarity, true)
            else (o.char.rarity, false) : Int × Bool).1 = o.char.rarity
        rw [if_neg hnr, if_neg hid2]
      · show (if o.char.rarity > 100 then (o.char.rarity - 100, true)
            else if o.char.id = 10000062 then (o.char.rarity, true)
            else (o.char.rarity, false) : Int × Bool).2 = false
        rw [if_neg hnr, if_neg hid2]

/-- C6 (witness): a registry record with rarity 105 decodes to rarity 5 and
collab true. -/
theorem c6_witness :
    ∃ o : ResolveOk,
      getDbChar [⟨7, "Kk", "Cb", "Pyro", 105, false⟩] (some 7) none none none none =
        .ok o ∧
      (o.char.rarity > 100 → (5 : Int) = o.char.rarity - 100 ∧ true = true) ∧
      (o.char.rarity ≤ 100 → (7 : Int) = 10000062 →
        (5 : Int) = o.char.rarity ∧ true = true) ∧
      (o.char.rarity ≤ 100 → (7 : Int) ≠ 10000062 →
        (5 : Int) = o.char.rarity ∧ true = false) :=
  c6_variant_decoding [⟨7, "Kk", "Cb", "Pyro", 105, false⟩]
    ⟨some 7, none, none, none, none⟩
    ⟨7, "Cb", "Pyro", 5, createIcon "Kk" "character_icon/UI_AvatarIcon" 0, true⟩
    [⟨7, "Kk", "Cb", "Pyro", 105, false⟩] false rfl

/-- C8 (counterexample): a constructible facade whose stored icon was kept
as supplied (it contains "genshin") and whose extracted key ends in "@2x",
so its side_icon URL does contain "@2x" immediately before the ".png"
extension, refuting the clause that the side_icon URL never contains a
scale suffix. -/
theorem c8_counterexample :
    autocomplete [⟨1, "Keqing", "Keqing", "Electro", 5, false⟩]
        ⟨some 1, none, some "genshinUI_AvatarIcon_Foo@2x.png", none, none⟩ =
      .ok (⟨1, "Keqing", "Electro", 5, "genshinUI_AvatarIcon_Foo@2x.png", false⟩,
        [⟨1, "Keqing", "Keqing", "Electro", 5, false⟩], false) ∧
    side_icon ⟨1, "Keqing", "Electro", 5, "genshinUI_AvatarIcon_Foo@2x.png", false⟩ =
      ICON_BASE ++ "character_side_icon/UI_AvatarIcon_Side_Foo@2x.png" ∧
    strEndsWith
      (side_icon ⟨1, "Keqing", "Electro", 5, "genshinUI_AvatarIcon_Foo@2x.png", false⟩)
      "@2x.png" = true := ⟨rfl, rfl, rfl⟩

/-- C8 (amended): for every constructed facade, the image and side_icon URLs
begin with the fixed base origin and end with ".png"; the scale-2 image URL
ends with "@2x" immediately before the extension; and the side_icon URL is
built with no scale suffix appended between the extracted key and ".png"
(so it contains "@2x" before the extension only when the key itself ends
that way). -/
theorem c8_amended (reg : Registry) (v : PartialInput) (f : Facade)
    (rg : Registry) (w : Bool) (h : autocomplete reg v = .ok (f, rg, w)) :
    strStartsWith (image f) ICON_BASE = true ∧
    strEndsWith (image f) "@2x.png" = true ∧
    strStartsWith (side_icon f) ICON_BASE = true ∧
    strEndsWith (side_icon f) ".png" = true ∧
    side_icon f =
      ICON_BASE ++ "character_side_icon/UI_AvatarIcon_Side" ++ "_" ++
        parseIconStr f.icon ++ ".png" := by
  refine ⟨?_, ?_, ?_, ?_, ?_⟩
  · show strStartsWith (createIcon f.icon "character_image/UI_AvatarIcon" 2) ICON_BASE = true
    rw [createIcon2_shape]
    exact startsWith_append _ _
  · show strEndsWith (createIcon f.icon "character_image/UI_AvatarIcon" 2) "@2x.png" = true
    rw [createIcon2_shape, ← strAppend_assoc]
    exact endsWith_append _ _
  · show strStartsWith (createIcon f.icon "character_side_icon/UI_AvatarIcon_Side" 0)
      ICON_BASE = true
    rw [createIcon0_shape]
    exact startsWith_append _ _
  · show strEndsWith (createIcon f.icon "character_side_icon/UI_AvatarIcon_Side" 0)
      ".png" = true
    rw [createIcon0_shape, ← strAppend_assoc]
    exact endsWith_append _ _
  · show createIcon f.icon "character_side_icon/UI_AvatarIcon_Side" 0 =
      ICON_BASE ++ "character_side_icon/UI_AvatarIcon_Side" ++ "_" ++
        parseIconStr f.icon ++ ".png"
    rw [createIcon0_shape]
    simp only [strAppend_assoc]

/-- C8 (witness): the amended claim applied to a facade constructed by a
direct id hit on a one-record registry. -/
theorem c8_amended_witness :
    strStartsWith
      (image ⟨3, "Mona", "Hydro", 5, createIcon "Mona" "character_icon/UI_AvatarIcon" 0,
        false⟩) ICON_BASE = true ∧
    strEndsWith
      (image ⟨3, "Mona", "Hydro", 5, createIcon "Mona" "character_icon/UI_AvatarIcon" 0,
        false⟩) "@2x.png" = true ∧
    strStartsWith
      (side_icon ⟨3, "Mona", "Hydro", 5,
        createIcon "Mona" "character_icon/UI_AvatarIcon" 0, false⟩) ICON_BASE = true ∧
    strEndsWith
      (side_icon ⟨3, "Mona", "Hydro", 5,
        createIcon "Mona" "character_icon/UI_AvatarIcon" 0, false⟩) ".png" = true ∧
    side_icon ⟨3, "Mona", "Hydro", 5,
        createIcon "Mona" "character_icon/UI_AvatarIcon" 0, false⟩ =
      ICON_BASE ++ "character_side_icon/UI_AvatarIcon_Side" ++ "_" ++
        parseIconStr (⟨3, "Mona", "Hydro", 5,
          createIcon "Mona" "character_icon/UI_AvatarIcon" 0, false⟩ : Facade).icon ++
        ".png" :=
  c8_amended [⟨3, "Mona", "Mona", "Hydro", 5, false⟩] ⟨some 3, none, none, none, none⟩
    ⟨3, "Mona", "Hydro", 5, createIcon "Mona" "character_icon/UI_AvatarIcon" 0, false⟩
    [⟨3, "Mona", "Mona", "Hydro", 5, false⟩] false rfl

/-- C5 (counterexample): the greedy capture is not idempotent: on
"UI_AvatarIcon_UI_AvatarIcon_F.png.png" the capture is itself a matching
icon string, so a second application extracts again. -/
theorem c5_counterexample :
    parseIconStr "UI_AvatarIcon_UI_AvatarIcon_F.png.png" = "UI_AvatarIcon_F.png" ∧
    parseIconStr "UI_AvatarIcon_F.png" = "F" ∧
    parseIconStr (parseIconStr "UI_AvatarIcon_UI_AvatarIcon_F.png.png") ≠
      parseIconStr "UI_AvatarIcon_UI_AvatarIcon_F.png.png" :=
  ⟨rfl, rfl, by decide⟩

theorem litM_eq (p : List Char) : ∀ s r : List Char, litM p s = some r → s = p ++ r := by
  induction p with
  | nil =>
    intro s r h
    simp only [litM, Option.some.injEq] at h
    simp [h]
  | cons a as ih =>
    intro s r h
    cases s with
    | nil => simp [litM] at h
    | cons b bs =>
      simp only [litM] at h
      by_cases hab : a = b
      · rw [if_pos hab] at h
        have hbs := ih bs r h
        subst hab
        simp [hbs]
      · rw [if_neg hab] at h
        exact Option.noConfusion h

theorem prefContains (pat : List Char) (hne : pat ≠ []) :
    ∀ l : List Char, listPref pat l = true → containsSub pat l = true := by
  intro l h
  cases l with
  | nil =>
    cases pat with
    | nil => exact absurd rfl hne
    | cons c cs => simp [listPref] at h
  | cons b bs =>
    simp only [containsSub]
    rw [h]
    rfl

theorem pngAtContains : ∀ l : List Char, pngAt l = true → containsSub pngChars l = true := by
  intro l h
  cases l with
  | nil => simp [pngAt] at h
  | cons c rest =>
    simp only [pngAt, Bool.and_eq_true] at h
    have h3 : containsSub pngChars rest = true :=
      prefContains pngChars (by simp [pngChars]) rest h.2
    simp only [containsSub]
    rw [h3]
    simp

theorem containsDrop (pat : List Char) : ∀ (k : Nat) (l : List Char),
    containsSub pat (l.drop k) = true → containsSub pat l = true := by
  intro k
  induction k with
  | zero => intro l h; simpa using h
  | succ n ih =>
    intro l h
    cases l with
    | nil => simpa using h
    | cons a rest =>
      have h2 := ih rest (by simpa using h)
      simp only [containsSub]
      rw [h2]
      simp

theorem containsAppendRight (pat : List Char) : ∀ a b : List Char,
    containsSub pat b = true → containsSub pat (a ++ b) = true := by
  intro a
  induction a with
  | nil => intro b h; simpa using h
  | cons x xs ih =>
    intro b h
    have h2 : containsSub pat (xs ++ b) = true := ih b h
    show containsSub pat (x :: (xs ++ b)) = true
    simp only [containsSub]
    rw [h2]
    simp

theorem tryCapPng (rest : List Char) (k : Nat) (cap : List Char)
    (h : tryCap rest k = some cap) : containsSub pngChars rest = true := by
  unfold tryCap at h
  split at h
  next hcond =>
    have hc := hcond
    simp only [Bool.and_eq_true] at hc
    exact containsDrop pngChars k rest (pngAtContains _ hc.2)
  next hcond => exact Option.noConfusion h

theorem greedyAuxPng (rest : List Char) : ∀ (k : Nat) (cap : List Char),
    greedyCapAux rest k = some cap → containsSub pngChars rest = true := by
  intro k
  induction k with
  | zero =>
    intro cap h
    simp only [greedyCapAux] at h
    exact tryCapPng rest 0 cap h
  | succ n ih =>
    intro cap h
    simp only [greedyCapAux] at h
    split at h
    next c ht => exact tryCapPng rest (n + 1) c ht
    next ht => exact ih cap h

theorem litGreedyPng (p r1 cap : List Char)
    (h : (match litM p r1 with
          | some r => greedyCap r
          | none => none) = some cap) :
    containsSub pngChars r1 = true := by
  split at h
  next r hl =>
    have hr : containsSub pngChars r = true := by
      unfold greedyCap at h
      exact greedyAuxPng r r.length cap h
    rw [litM_eq p r1 r hl]
    exact containsAppendRight pngChars _ _ hr
  next hl => exact Option.noConfusion h

theorem matchAtPng (s cap : List Char) (h : matchAt s = some cap) :
    containsSub pngChars s = true := by
  unfold matchAt at h
  split at h
  next h1 => exact Option.noConfusion h
  next r1 h1 =>
    rw [litM_eq _ s r1 h1]
    apply containsAppendRight
    split at h
    next cA hA => exact litGreedyPng "_Side_".data r1 cA hA
    next hA => exact litGreedyPng "_".data r1 cap h

theorem searchPng : ∀ l cap : List Char,
    searchCapture l = some cap → containsSub pngChars l = true := by
  intro l
  induction l with
  | nil => intro cap h; simp [searchCapture] at h
  | cons a rest ih =>
    intro cap h
    simp only [searchCapture] at h
    split at h
    next c hm => exact matchAtPng _ _ hm
    next hm =>
      have h2 := ih cap h
      simp only [containsSub]
      rw [h2]
      simp

theorem noPngNoMatch (l : List Char) (h : containsSub pngChars l = false) :
    searchCapture l = none := by
  cases hs : searchCapture l with
  | none => rfl
  | some cap =>
    rw [searchPng l cap hs] at h
    exact Bool.noConfusion h

theorem parseNoSearch (s : String) (h : searchCapture s.data = none) :
    parseIconStr s = s := by
  unfold parseIconStr
  rw [h]

/-- C5 (amended): applying `_parse_icon` to its own output is a no-op
whenever the input did not match the icon pattern at all, or the extracted
output contains no occurrence of the substring "png" (so it cannot match
again); full idempotence fails exactly when the greedy capture itself still
matches the pattern. -/
theorem c5_amended (x : String)
    (h : searchCapture x.data = none ∨
      containsSub pngChars (parseIconStr x).data = false) :
    parseIconStr (parseIconStr x) = parseIconStr x := by
  rcases h with h | h
  · rw [parseNoSearch x h]
    exact parseNoSearch x h
  · exact parseNoSearch _ (noPngNoMatch _ h)

/-- C5 (witness): the amended claim applied to a normal icon string whose
extracted key "Ayaka" is png-free. -/
theorem c5_amended_witness :
    parseIconStr (parseIconStr "UI_AvatarIcon_Ayaka.png") =
      parseIconStr "UI_AvatarIcon_Ayaka.png" :=
  c5_amended "UI_AvatarIcon_Ayaka.png" (Or.inr (by decide))
